import Mathlib

/-!
# Verification of the Redis caching and metrics aggregation layer

A shallow embedding of `src/script/redis-manager.ts`: the utility field
constructors, the Redis data model (hashes, TTLs, batch commands), the
manager state (enabled flag, per-client readiness, the memoized metrics
setup future) and every public method of `RedisManager`, together with
theorems settling the specification claims.

Store commands are translated from the source; the behavior of the
underlying platform (the node_redis client and `JSON` serialization),
which is not part of the repository, is modelled from the specification
where needed and documented at each such definition.
-/

namespace CodePush

/-! ### Decimal printing and parsing

Redis stores hash values as strings and `HINCRBY` reinterprets them as
integers; the manager also serializes integer status codes.  We model the
decimal representation executably (fuel-based recursion, so terms reduce
inside the kernel).
-/

def digitChar (d : Nat) : Char := Char.ofNat (48 + d)

def digitVal (c : Char) : Option Nat :=
  if 48 ≤ c.toNat ∧ c.toNat ≤ 57 then some (c.toNat - 48) else none

def natDigitsAux : Nat → Nat → List Char
  | 0, _ => []
  | fuel + 1, n =>
    if n < 10 then [digitChar n]
    else natDigitsAux fuel (n / 10) ++ [digitChar (n % 10)]

/-- Big-endian decimal digits of a natural number (never empty). -/
def natDigits (n : Nat) : List Char := natDigitsAux (n + 1) n

def parseNatAux : List Char → Nat → Option Nat
  | [], acc => some acc
  | c :: cs, acc =>
    match digitVal c with
    | some d => parseNatAux cs (10 * acc + d)
    | none => none

def parseNatChars (cs : List Char) : Option Nat :=
  if cs.isEmpty then none else parseNatAux cs 0

def intChars (i : Int) : List Char :=
  if i < 0 then '-' :: natDigits (-i).toNat else natDigits i.toNat

/-- Decimal string of an integer, as produced by the store for counters. -/
def intToString (i : Int) : String := String.mk (intChars i)

def parseIntChars (cs : List Char) : Option Int :=
  match cs with
  | [] => none
  | c :: rest =>
    if c = '-' then (parseNatChars rest).map (fun n : Nat => -(n : Int))
    else (parseNatChars (c :: rest)).map (fun n : Nat => (n : Int))

/-- Strict integer reading used by `HINCRBY`: an optional minus sign
followed by decimal digits. -/
def redisParseInt (s : String) : Option Int := parseIntChars s.data

theorem digitChar_toNat (d : Nat) (hd : d < 10) : (digitChar d).toNat = 48 + d := by
  interval_cases d <;> decide

theorem digitVal_digitChar (d : Nat) (hd : d < 10) : digitVal (digitChar d) = some d := by
  interval_cases d <;> decide

theorem natDigitsAux_bounds (fuel n : Nat) (hn : n < fuel) :
    ∀ c ∈ natDigitsAux fuel n, 48 ≤ c.toNat ∧ c.toNat ≤ 57 := by
  induction fuel generalizing n with
  | zero => omega
  | succ fuel ih =>
    intro c hc
    rw [natDigitsAux] at hc
    split at hc
    · next h10 =>
      simp only [List.mem_singleton] at hc
      subst hc
      rw [digitChar_toNat n h10]
      omega
    · next h10 =>
      rcases List.mem_append.mp hc with h | h
      · exact ih (n / 10) (by omega) c h
      · simp only [List.mem_singleton] at h
        subst h
        rw [digitChar_toNat (n % 10) (Nat.mod_lt _ (by omega))]
        omega

theorem natDigits_bounds (n : Nat) :
    ∀ c ∈ natDigits n, 48 ≤ c.toNat ∧ c.toNat ≤ 57 :=
  natDigitsAux_bounds (n + 1) n (Nat.lt_succ_self n)

theorem natDigitsAux_ne_nil (fuel n : Nat) (hn : n < fuel) : natDigitsAux fuel n ≠ [] := by
  cases fuel with
  | zero => omega
  | succ fuel =>
    rw [natDigitsAux]
    split
    · exact List.cons_ne_nil _ _
    · intro hc
      have hlen := congrArg List.length hc
      simp [List.length_append] at hlen

theorem natDigits_ne_nil (n : Nat) : natDigits n ≠ [] :=
  natDigitsAux_ne_nil (n + 1) n (Nat.lt_succ_self n)

theorem parseNatAux_append (xs ys : List Char) (a : Nat) :
    parseNatAux (xs ++ ys) a = (parseNatAux xs a).bind (fun b => parseNatAux ys b) := by
  induction xs generalizing a with
  | nil => simp [parseNatAux]
  | cons c cs ih =>
    simp only [List.cons_append, parseNatAux]
    cases digitVal c with
    | some d => simpa using ih (10 * a + d)
    | none => rfl

theorem parseNatAux_natDigitsAux (fuel n a : Nat) (hn : n < fuel) :
    parseNatAux (natDigitsAux fuel n) a =
      some (a * 10 ^ (natDigitsAux fuel n).length + n) := by
  induction fuel generalizing n a with
  | zero => omega
  | succ fuel ih =>
    rw [natDigitsAux]
    split
    · next h10 =>
      simp only [parseNatAux, digitVal_digitChar n h10, List.length_cons, List.length_nil,
        pow_one, Nat.zero_add]
      congr 1
      omega
    · next h10 =>
      have hrec : n / 10 < fuel := by
        have h1 : n / 10 < n := Nat.div_lt_self (by omega) (by omega)
        omega
      rw [parseNatAux_append, ih (n / 10) a hrec]
      have hm : n % 10 < 10 := Nat.mod_lt _ (by omega)
      simp only [Option.bind, parseNatAux, digitVal_digitChar (n % 10) hm,
        List.length_append, List.length_cons, List.length_nil, Nat.zero_add]
      congr 1
      have hmod : 10 * (n / 10) + n % 10 = n := Nat.div_add_mod n 10
      rw [Nat.mul_add, Nat.add_assoc, hmod, pow_succ]
      ring

theorem parseNatChars_natDigits (n : Nat) : parseNatChars (natDigits n) = some n := by
  rw [parseNatChars, if_neg (by simp [natDigits_ne_nil n])]
  rw [natDigits, parseNatAux_natDigitsAux (n + 1) n 0 (Nat.lt_succ_self n)]
  simp

theorem natDigits_head_not_dash (n : Nat) (c : Char) (cs : List Char)
    (h : natDigits n = c :: cs) : ¬ c = '-' := by
  intro hc
  have hb := natDigits_bounds n c (by rw [h]; simp)
  subst hc
  simp at hb

theorem parseIntChars_intChars (i : Int) : parseIntChars (intChars i) = some i := by
  rw [intChars]
  split
  · next hneg =>
    have h1 : parseIntChars ('-' :: natDigits (-i).toNat) =
        (parseNatChars (natDigits (-i).toNat)).map (fun n : Nat => -(n : Int)) := by
      simp [parseIntChars]
    rw [h1, parseNatChars_natDigits, Option.map_some']
    congr 1
    omega
  · next hneg =>
    cases hd : natDigits i.toNat with
    | nil => exact absurd hd (natDigits_ne_nil _)
    | cons c cs =>
      have hne : ¬ c = '-' := natDigits_head_not_dash _ _ _ hd
      simp only [parseIntChars, if_neg hne]
      rw [← hd, parseNatChars_natDigits, Option.map_some']
      congr 1
      omega

theorem redisParseInt_intToString (i : Int) : redisParseInt (intToString i) = some i :=
  parseIntChars_intChars i

/-! ### Association lists

Redis hashes and the key space itself are modelled as string-keyed
association lists. -/

def aget {α : Type} : List (String × α) → String → Option α
  | [], _ => none
  | (k, v) :: rest, key => if k = key then some v else aget rest key

def aset {α : Type} : List (String × α) → String → α → List (String × α)
  | [], key, v => [(key, v)]
  | (k, w) :: rest, key, v =>
    if k = key then (k, v) :: rest else (k, w) :: aset rest key v

def adel {α : Type} : List (String × α) → String → List (String × α)
  | [], _ => []
  | (k, w) :: rest, key =>
    if k = key then adel rest key else (k, w) :: adel rest key

theorem aget_aset_self {α : Type} (l : List (String × α)) (k : String) (v : α) :
    aget (aset l k v) k = some v := by
  induction l with
  | nil => simp [aget, aset]
  | cons p rest ih =>
    obtain ⟨k', w⟩ := p
    by_cases h : k' = k
    · simp [aset, aget, h]
    · simp [aset, aget, h, ih]

theorem aget_aset_ne {α : Type} (l : List (String × α)) (k k' : String) (v : α)
    (h : k' ≠ k) : aget (aset l k v) k' = aget l k' := by
  induction l with
  | nil => simp [aget, aset, Ne.symm h]
  | cons p rest ih =>
    obtain ⟨k0, w⟩ := p
    by_cases h0 : k0 = k
    · subst h0
      simp [aset, aget, Ne.symm h]
    · simp [aset, aget, h0, ih]

theorem aget_adel_self {α : Type} (l : List (String × α)) (k : String) :
    aget (adel l k) k = none := by
  induction l with
  | nil => simp [aget, adel]
  | cons p rest ih =>
    obtain ⟨k0, w⟩ := p
    by_cases h0 : k0 = k
    · simp [adel, h0, ih]
    · simp [adel, aget, h0, ih]

theorem aget_adel_ne {α : Type} (l : List (String × α)) (k k' : String)
    (h : k' ≠ k) : aget (adel l k) k' = aget l k' := by
  induction l with
  | nil => simp [adel]
  | cons p rest ih =>
    obtain ⟨k0, w⟩ := p
    by_cases h0 : k0 = k
    · subst h0
      simp [adel, aget, Ne.symm h, ih]
    · simp [adel, aget, h0, ih]

theorem aget_map {α β : Type} (l : List (String × α)) (g : α → β) (k : String) :
    aget (l.map (fun p => (p.1, g p.2))) k = (aget l k).map g := by
  induction l with
  | nil => simp [aget]
  | cons p rest ih =>
    obtain ⟨k0, w⟩ := p
    by_cases h0 : k0 = k
    · simp [aget, h0]
    · simp [aget, h0, ih]

/-! ### Generic takeWhile and dropWhile facts -/

theorem takeWhile_all_true (p : Char → Bool) (l : List Char)
    (h : ∀ c ∈ l, p c = true) : l.takeWhile p = l := by
  induction l with
  | nil => rfl
  | cons a l ih =>
    rw [List.takeWhile_cons, h a (by simp)]
    simp [ih (fun c hc => h c (by simp [hc]))]

theorem dropWhile_all_true (p : Char → Bool) (l : List Char)
    (h : ∀ c ∈ l, p c = true) : l.dropWhile p = [] := by
  induction l with
  | nil => rfl
  | cons a l ih =>
    rw [List.dropWhile_cons, h a (by simp)]
    simp [ih (fun c hc => h c (by simp [hc]))]

theorem dropWhile_all_false (p : Char → Bool) (l : List Char)
    (h : ∀ c ∈ l, p c = false) : l.dropWhile p = l := by
  cases l with
  | nil => rfl
  | cons a l =>
    rw [List.dropWhile_cons, h a (by simp)]
    simp

theorem takeWhile_append_stop (p : Char → Bool) (xs ys : List Char) (y : Char)
    (hxs : ∀ c ∈ xs, p c = true) (hy : p y = false) :
    (xs ++ y :: ys).takeWhile p = xs := by
  induction xs with
  | nil => simp [List.takeWhile_cons, hy]
  | cons a xs ih =>
    rw [List.cons_append, List.takeWhile_cons, hxs a (by simp)]
    simp [ih (fun c hc => hxs c (by simp [hc]))]

theorem dropWhile_append_stop (p : Char → Bool) (xs ys : List Char) (y : Char)
    (hxs : ∀ c ∈ xs, p c = true) (hy : p y = false) :
    (xs ++ y :: ys).dropWhile p = y :: ys := by
  induction xs with
  | nil => simp [List.dropWhile_cons, hy]
  | cons a xs ih =>
    rw [List.cons_append, List.dropWhile_cons, hxs a (by simp)]
    simp [ih (fun c hc => hxs c (by simp [hc]))]

/-! ### String basics -/

theorem string_mk_data (s : String) : String.mk s.data = s := by
  cases s
  rfl

theorem string_data_inj (a b : String) (h : a.data = b.data) : a = b := by
  cases a
  cases b
  exact congrArg String.mk h

theorem string_data_append (a b : String) : (a ++ b).data = a.data ++ b.data := by
  cases a
  cases b
  rfl

/-! ### The platform's string-to-number coercion

`getMetricsWithDeploymentKey` relies on the platform coercion used by
`isNaN` and unary plus.  Modelled from the spec for the decimal fragment:
whitespace-only strings coerce to 0, an optional sign followed by decimal
digits (with an optional fractional part) coerces to the corresponding
number, anything else is NaN (here: `none`). -/

def isJsSpace (c : Char) : Bool :=
  c.toNat = 32 || c.toNat = 9 || c.toNat = 10 || c.toNat = 11 || c.toNat = 12 ||
  c.toNat = 13 || c.toNat = 160 || c.toNat = 65279

def jsTrim (cs : List Char) : List Char :=
  ((cs.dropWhile isJsSpace).reverse.dropWhile isJsSpace).reverse

/-- Numeric reading of an unsigned decimal literal: digits with an optional
fractional part.  `none` means NaN. -/
def jsParseUnsigned (cs : List Char) : Option Rat :=
  match cs.dropWhile (fun c => c != '.') with
  | [] =>
    if cs.isEmpty then none
    else (parseNatAux cs 0).map (fun n : Nat => (n : Rat))
  | c :: fp =>
    if c = '.' then
      if (cs.takeWhile (fun c => c != '.')).isEmpty && fp.isEmpty then none
      else
        match parseNatAux (cs.takeWhile (fun c => c != '.')) 0, parseNatAux fp 0 with
        | some iv, some fv => some ((iv : Rat) + (fv : Rat) / (10 : Rat) ^ fp.length)
        | _, _ => none
    else none

/-- Modelled from the spec: the platform's string-to-number coercion on the
decimal fragment.  Returns `none` exactly when the coercion yields NaN. -/
def jsToNumber (s : String) : Option Rat :=
  if (jsTrim s.data).isEmpty then some 0
  else if (jsTrim s.data).head? = some '-' then
    (jsParseUnsigned (jsTrim s.data).tail).map (fun q => -q)
  else if (jsTrim s.data).head? = some '+' then jsParseUnsigned (jsTrim s.data).tail
  else jsParseUnsigned (jsTrim s.data)

theorem jsTrim_eq_self (cs : List Char) (h : ∀ c ∈ cs, isJsSpace c = false) :
    jsTrim cs = cs := by
  unfold jsTrim
  rw [dropWhile_all_false _ _ h]
  rw [dropWhile_all_false _ _ (fun c hc => h c (List.mem_reverse.mp hc))]
  exact List.reverse_reverse cs

theorem jsTrim_all_space (cs : List Char) (h : ∀ c ∈ cs, isJsSpace c = true) :
    jsTrim cs = [] := by
  unfold jsTrim
  rw [dropWhile_all_true _ _ h]
  rfl

theorem jsToNumber_all_space (s : String) (h : ∀ c ∈ s.data, isJsSpace c = true) :
    jsToNumber s = some 0 := by
  unfold jsToNumber
  rw [jsTrim_all_space _ h]
  rfl

theorem parseNatAux_natDigits0 (n : Nat) : parseNatAux (natDigits n) 0 = some n := by
  rw [natDigits, parseNatAux_natDigitsAux (n + 1) n 0 (Nat.lt_succ_self n)]
  simp

theorem jsParseUnsigned_natDigits (n : Nat) :
    jsParseUnsigned (natDigits n) = some ((n : Nat) : Rat) := by
  unfold jsParseUnsigned
  have hdig : ∀ c ∈ natDigits n, ((fun c => c != '.') c) = true := by
    intro c hc
    have hb := natDigits_bounds n c hc
    simp only [bne_iff_ne, ne_eq]
    intro hcon
    subst hcon
    simp at hb
  rw [dropWhile_all_true _ _ hdig]
  rw [if_neg (by simp [natDigits_ne_nil n])]
  rw [parseNatAux_natDigits0]
  rfl

theorem digit_not_space (c : Char) (h : 48 ≤ c.toNat ∧ c.toNat ≤ 57) :
    isJsSpace c = false := by
  unfold isJsSpace
  obtain ⟨h1, h2⟩ := h
  simp only [Bool.or_eq_false_iff, decide_eq_false_iff_not]
  omega

theorem jsToNumber_intToString (i : Int) : jsToNumber (intToString i) = some ((i : Int) : Rat) := by
  by_cases hneg : i < 0
  · have hchars : (intToString i).data = '-' :: natDigits (-i).toNat := by
      rw [show (intToString i).data = intChars i from rfl, intChars, if_pos hneg]
    have hsp : ∀ c ∈ ('-' :: natDigits (-i).toNat), isJsSpace c = false := by
      intro c hc
      rcases List.mem_cons.mp hc with h | h
      · subst h
        decide
      · exact digit_not_space c (natDigits_bounds _ c h)
    have htrim : jsTrim (intToString i).data = '-' :: natDigits (-i).toNat := by
      rw [hchars]
      exact jsTrim_eq_self _ hsp
    unfold jsToNumber
    rw [htrim]
    simp only [List.isEmpty_cons, List.head?_cons, List.tail_cons, Option.some.injEq,
      if_pos rfl, Bool.false_eq_true, if_false]
    rw [jsParseUnsigned_natDigits, Option.map_some']
    have hcast : (((-i).toNat : Nat) : Rat) = ((-i : Int) : Rat) := by
      rw [← Int.cast_natCast, Int.toNat_of_nonneg (by omega)]
    rw [hcast]
    push_cast
    ring_nf
  · have hchars : (intToString i).data = natDigits i.toNat := by
      rw [show (intToString i).data = intChars i from rfl, intChars, if_neg hneg]
    have hsp : ∀ c ∈ natDigits i.toNat, isJsSpace c = false :=
      fun c hc => digit_not_space c (natDigits_bounds _ c hc)
    have htrim : jsTrim (intToString i).data = natDigits i.toNat := by
      rw [hchars]
      exact jsTrim_eq_self _ hsp
    unfold jsToNumber
    rw [htrim]
    cases hd : natDigits i.toNat with
    | nil => exact absurd hd (natDigits_ne_nil _)
    | cons c cs =>
      have hb := natDigits_bounds i.toNat c (by rw [hd]; simp)
      have hdash : ¬ c = '-' := by
        intro hcon
        subst hcon
        simp at hb
      have hplus : ¬ c = '+' := by
        intro hcon
        subst hcon
        simp at hb
      simp only [List.isEmpty_cons, List.head?_cons, Option.some.injEq, if_neg hdash,
        if_neg hplus, Bool.false_eq_true, if_false]
      rw [← hd, jsParseUnsigned_natDigits]
      congr 1
      rw [← Int.cast_natCast, Int.toNat_of_nonneg (by omega)]

/-! ### Cacheable responses and their serialized encoding -/

/-- The `CacheableResponse` interface: an integer status code and an
arbitrary body, held here as its encoded text. -/
structure CacheableResponse where
  statusCode : Int
  body : String
deriving DecidableEq

/-- Modelled from the spec: the structured (JSON) encoding of a
`CacheableResponse` written by `setCachedResponse` (the platform's
`JSON.stringify` is not part of the repository).  Decimal status code,
a separator, then the body text. -/
def serializeResponse (r : CacheableResponse) : String :=
  String.mk (intChars r.statusCode ++ ';' :: r.body.data)

/-- Modelled from the spec: the inverse decoding used by
`getCachedResponse` (the platform's `JSON.parse`); `none` models a parse
failure on malformed input. -/
def deserializeResponse (s : String) : Option CacheableResponse :=
  match s.data.dropWhile (fun c => c != ';') with
  | c :: rest =>
    if c = ';' then
      (parseIntChars (s.data.takeWhile (fun c => c != ';'))).map
        (fun i => CacheableResponse.mk i (String.mk rest))
    else none
  | [] => none

theorem intChars_not_semi (i : Int) : ∀ c ∈ intChars i, ((fun c => c != ';') c) = true := by
  intro c hc
  simp only [bne_iff_ne, ne_eq]
  intro hcon
  rw [intChars] at hc
  subst hcon
  split at hc
  · rcases List.mem_cons.mp hc with h | h
    · simp at h
    · have hb := natDigits_bounds _ _ h
      simp at hb
  · have hb := natDigits_bounds _ _ hc
    simp at hb

theorem serializeResponse_ne_empty (r : CacheableResponse) : serializeResponse r ≠ "" := by
  intro hcon
  have hd := congrArg String.data hcon
  rw [show (serializeResponse r).data = intChars r.statusCode ++ ';' :: r.body.data from rfl] at hd
  have hlen := congrArg List.length hd
  simp [List.length_append] at hlen

theorem deserialize_serialize (r : CacheableResponse) :
    deserializeResponse (serializeResponse r) = some r := by
  unfold deserializeResponse serializeResponse
  rw [show (String.mk (intChars r.statusCode ++ ';' :: r.body.data)).data
      = intChars r.statusCode ++ ';' :: r.body.data from rfl]
  rw [dropWhile_append_stop _ _ _ _ (intChars_not_semi r.statusCode) (by decide)]
  rw [takeWhile_append_stop _ _ _ _ (intChars_not_semi r.statusCode) (by decide)]
  rw [parseIntChars_intChars]
  simp [string_mk_data]

/-! ### The Redis store model

A logical database maps keys to hashes (field-to-string maps) and keys to
TTLs.  Semantics of the individual commands follow the Redis protocol as
used by the source: `HGET`/`HSET`/`HGETALL`/`HDEL`/`HINCRBY`/`EXISTS`/
`EXPIRE`/`DEL`. -/

structure RedisDb where
  hashes : List (String × List (String × String))
  ttls : List (String × Nat)
deriving DecidableEq

def emptyDb : RedisDb := RedisDb.mk [] []

def hget (db : RedisDb) (key field : String) : Option String :=
  (aget db.hashes key).bind (fun h => aget h field)

def hsetDb (db : RedisDb) (key field value : String) : RedisDb :=
  RedisDb.mk (aset db.hashes key (aset ((aget db.hashes key).getD []) field value)) db.ttls

def existsDb (db : RedisDb) (key : String) : Bool :=
  (aget db.hashes key).isSome

def expireDb (db : RedisDb) (key : String) (seconds : Nat) : RedisDb :=
  if existsDb db key then RedisDb.mk db.hashes (aset db.ttls key seconds) else db

def delDb (db : RedisDb) (keys : List String) : RedisDb :=
  keys.foldl (fun d k => RedisDb.mk (adel d.hashes k) (adel d.ttls k)) db

def hdelDb (db : RedisDb) (key field : String) : RedisDb :=
  match aget db.hashes key with
  | none => db
  | some h =>
    let h2 := adel h field
    if h2.isEmpty then RedisDb.mk (adel db.hashes key) (adel db.ttls key)
    else RedisDb.mk (aset db.hashes key h2) db.ttls

def hgetallDb (db : RedisDb) (key : String) : Option (List (String × String)) :=
  aget db.hashes key

/-- Error taxonomy of §7: a permanently missing configuration, a handle
that is not ready, a transport failure, a client-side argument rejection,
a Redis wrong-type reply, and a cache payload that fails to decode. -/
inductive RedisErr where
  | notEnabled
  | notReady
  | storeError
  | clientError
  | wrongType
  | decodeError
deriving DecidableEq

/-- `HINCRBY`: a missing field counts as 0; a field whose value is not an
integer makes the command fail with a wrong-type error. -/
def hincrbyDb (db : RedisDb) (key field : String) (incr : Int) :
    Except RedisErr (RedisDb × Int) :=
  match hget db key field with
  | none => Except.ok (hsetDb db key field (intToString incr), incr)
  | some s =>
    match redisParseInt s with
    | none => Except.error RedisErr.wrongType
    | some n => Except.ok (hsetDb db key field (intToString (n + incr)), n + incr)

/-- The commands queued on a batch client by the source: `hincrby` (whose
field argument may be the null result of a field constructor) and `hset`. -/
inductive BatchCmd where
  | hincrby (key : String) (field : Option String) (incr : Int)
  | hset (key field value : String)
deriving DecidableEq

/-- Modelled from the spec and the platform: the node_redis batch client
pipelines the queued commands; a command with a null argument is rejected
client-side and a command that fails in the store (wrong type) fails
alone, while the remaining commands still apply. -/
def applyBatchCmd (db : RedisDb) (c : BatchCmd) : RedisDb :=
  match c with
  | BatchCmd.hincrby key (some field) incr =>
    match hincrbyDb db key field incr with
    | Except.ok (db2, _) => db2
    | Except.error _ => db
  | BatchCmd.hincrby _ none _ => db
  | BatchCmd.hset key field value => hsetDb db key field value

def execBatchDb (db : RedisDb) (cmds : List BatchCmd) : RedisDb :=
  cmds.foldl applyBatchCmd db

/-- The integer reading of a counter field: a missing field reads as 0;
`none` means the stored text is not an integer. -/
def counterVal (db : RedisDb) (key field : String) : Option Int :=
  match hget db key field with
  | none => some 0
  | some s => redisParseInt s

/-! ### Constants and the `Utilities` module (from the source) -/

def DEPLOYMENT_SUCCEEDED : String := "DeploymentSucceeded"

def DEPLOYMENT_FAILED : String := "DeploymentFailed"

def ACTIVE : String := "Active"

def DOWNLOADED : String := "Downloaded"

namespace Utilities

def isValidDeploymentStatus (status : String) : Bool :=
  status == DEPLOYMENT_SUCCEEDED || status == DEPLOYMENT_FAILED || status == DOWNLOADED

/-- Returns the field name, or null (`none`) for an unrecognized status. -/
def getLabelStatusField (label status : String) : Option String :=
  if isValidDeploymentStatus status then some (label ++ ":" ++ status) else none

/-- Returns the field name, or null (`none`) for a falsy (empty) label:
the source tests the label with JS truthiness (`if (label)`). -/
def getLabelActiveCountField (label : String) : Option String :=
  if label = "" then none else some (label ++ ":" ++ ACTIVE)

def getDeploymentKeyHash (deploymentKey : String) : String :=
  "deploymentKey:" ++ deploymentKey

def getDeploymentKeyLabelsHash (deploymentKey : String) : String :=
  "deploymentKeyLabels:" ++ deploymentKey

def getDeploymentKeyClientsHash (deploymentKey : String) : String :=
  "deploymentKeyClients:" ++ deploymentKey

end Utilities

/-! ### Store-level helper lemmas -/

theorem hashes_expireDb (db : RedisDb) (key : String) (seconds : Nat) :
    (expireDb db key seconds).hashes = db.hashes := by
  unfold expireDb
  split <;> rfl

theorem ttls_hsetDb (db : RedisDb) (key field value : String) :
    (hsetDb db key field value).ttls = db.ttls := rfl

theorem hget_hsetDb_same (db : RedisDb) (key field value : String) :
    hget (hsetDb db key field value) key field = some value := by
  unfold hget hsetDb
  rw [show (RedisDb.mk (aset db.hashes key (aset ((aget db.hashes key).getD []) field value))
      db.ttls).hashes = aset db.hashes key (aset ((aget db.hashes key).getD []) field value)
      from rfl]
  rw [aget_aset_self]
  show aget (aset ((aget db.hashes key).getD []) field value) field = some value
  exact aget_aset_self _ _ _

theorem hget_hsetDb_ne (db : RedisDb) (key field value : String) (k f : String)
    (h : k ≠ key ∨ f ≠ field) : hget (hsetDb db key field value) k f = hget db k f := by
  unfold hget hsetDb
  rcases h with h | h
  · simp only [aget_aset_ne db.hashes key k _ h]
  · by_cases hk : k = key
    · subst hk
      simp only [aget_aset_self]
      cases hval : aget db.hashes k with
      | none => simp [hval, aget_aset_ne _ _ _ _ h, aget, Ne.symm h]
      | some hh => simp [hval, aget_aset_ne _ _ _ _ h]
    · simp only [aget_aset_ne db.hashes key k _ hk]

theorem counterVal_hsetDb_same (db : RedisDb) (key field : String) (m : Int) :
    counterVal (hsetDb db key field (intToString m)) key field = some m := by
  unfold counterVal
  rw [hget_hsetDb_same]
  exact redisParseInt_intToString m

theorem counterVal_hsetDb_ne (db : RedisDb) (key field value : String) (k f : String)
    (h : k ≠ key ∨ f ≠ field) :
    counterVal (hsetDb db key field value) k f = counterVal db k f := by
  unfold counterVal
  rw [hget_hsetDb_ne db key field value k f h]

theorem applyBatchCmd_hincrby_counter (db : RedisDb) (key field : String) (v n : Int)
    (h : counterVal db key field = some n) :
    applyBatchCmd db (BatchCmd.hincrby key (some field) v)
      = hsetDb db key field (intToString (n + v)) := by
  unfold counterVal at h
  cases hval : hget db key field with
  | none =>
    rw [hval] at h
    simp only [Option.some.injEq] at h
    subst h
    simp [applyBatchCmd, hincrbyDb, hval]
  | some s =>
    simp only [hval] at h
    cases hp : redisParseInt s with
    | none =>
      rw [hp] at h
      exact absurd h (by simp)
    | some m =>
      rw [hp] at h
      simp only [Option.some.injEq] at h
      subst h
      simp [applyBatchCmd, hincrbyDb, hval, hp]

/-! ### The manager state -/

/-- JS truthiness of an optional string: absent and empty are both falsy. -/
def truthy : Option String → Bool
  | none => false
  | some s => s != ""

/-- In-process state of a `RedisManager`: whether the two clients were
created (configuration supplied), their readiness, the memoized metrics
setup future (`setupCell`, identified by id), a ghost counter of setup
attempts started, and the two logical databases. -/
structure RedisManager where
  enabled : Bool
  opsReady : Bool
  metricsReady : Bool
  setupCell : Option Nat
  nextId : Nat
  setupAttempts : Nat
  opsDb : RedisDb
  metricsDb : RedisDb
deriving DecidableEq

namespace RedisManager

def DEFAULT_EXPIRY : Nat := 3600

def METRICS_DB : Nat := 1

end RedisManager

/-- The constructor: the clients are created only when both `REDIS_HOST`
and `REDIS_PORT` are truthy (the source tests
`process.env.REDIS_HOST && process.env.REDIS_PORT`); otherwise the manager
stays permanently disabled. -/
def mkRedisManager (redisHost redisPort : Option String) : RedisManager :=
  if truthy redisHost && truthy redisPort then
    RedisManager.mk true false false none 0 0 emptyDb emptyDb
  else
    RedisManager.mk false false false none 0 0 emptyDb emptyDb

/-- `isEnabled`: both clients exist iff the configured branch was taken. -/
def isEnabled (s : RedisManager) : Bool := s.enabled

/-- `ensureMetricsSetup`: rejects when not enabled; returns the memoized
future when one is present; rejects when the metrics client is not ready;
otherwise starts a new setup attempt (select metrics database, verify
writability), memoizing the future on success and clearing the cell on
failure so the next call retries.  `setupFails` models the outcome of the
attempt's store operations. -/
def ensureMetricsSetup (s : RedisManager) (setupFails : Bool) :
    Except RedisErr Nat × RedisManager :=
  if s.enabled then
    match s.setupCell with
    | some fid => (Except.ok fid, s)
    | none =>
      if s.metricsReady then
        if setupFails then
          (Except.error RedisErr.storeError,
            { s with setupAttempts := s.setupAttempts + 1 })
        else
          (Except.ok s.nextId,
            { s with setupCell := some s.nextId, nextId := s.nextId + 1,
                     setupAttempts := s.setupAttempts + 1 })
      else (Except.error RedisErr.notReady, s)
  else (Except.error RedisErr.notEnabled, s)

/-! ### The safe invocation wrapper

`_safeCall` rejects when the manager is disabled or the client handle is
not connected, and otherwise forwards to the store; `inj` injects a
transport failure for that call. -/

def safeGuard (enabled ready inj : Bool) : Option RedisErr :=
  if enabled && ready then
    if inj then some RedisErr.storeError else none
  else some RedisErr.notReady

def safeHget (enabled ready inj : Bool) (db : RedisDb) (key field : String) :
    Except RedisErr (Option String) :=
  match safeGuard enabled ready inj with
  | some e => Except.error e
  | none => Except.ok (hget db key field)

def safeHset (enabled ready inj : Bool) (db : RedisDb) (key field value : String) :
    Except RedisErr RedisDb :=
  match safeGuard enabled ready inj with
  | some e => Except.error e
  | none => Except.ok (hsetDb db key field value)

def safeExists (enabled ready inj : Bool) (db : RedisDb) (key : String) :
    Except RedisErr Nat :=
  match safeGuard enabled ready inj with
  | some e => Except.error e
  | none => Except.ok (if existsDb db key then 1 else 0)

def safeExpire (enabled ready inj : Bool) (db : RedisDb) (key : String) (seconds : Nat) :
    Except RedisErr RedisDb :=
  match safeGuard enabled ready inj with
  | some e => Except.error e
  | none => Except.ok (expireDb db key seconds)

def safeDel (enabled ready inj : Bool) (db : RedisDb) (keys : List String) :
    Except RedisErr RedisDb :=
  match safeGuard enabled ready inj with
  | some e => Except.error e
  | none => Except.ok (delDb db keys)

/-- `hincrby` through the wrapper; a null (`none`) field argument is
rejected client-side by the underlying client (modelled from the spec:
the call degrades to a no-op when the field constructor returned null). -/
def safeHincrby (enabled ready inj : Bool) (db : RedisDb) (key : String)
    (field : Option String) (incr : Int) : Except RedisErr (RedisDb × Int) :=
  match safeGuard enabled ready inj with
  | some e => Except.error e
  | none =>
    match field with
    | none => Except.error RedisErr.clientError
    | some f => hincrbyDb db key f incr

def safeHdel (enabled ready inj : Bool) (db : RedisDb) (key field : String) :
    Except RedisErr RedisDb :=
  match safeGuard enabled ready inj with
  | some e => Except.error e
  | none => Except.ok (hdelDb db key field)

def safeHgetall (enabled ready inj : Bool) (db : RedisDb) (key : String) :
    Except RedisErr (Option (List (String × String))) :=
  match safeGuard enabled ready inj with
  | some e => Except.error e
  | none => Except.ok (hgetallDb db key)

def safeExecBatch (enabled ready inj : Bool) (db : RedisDb) (cmds : List BatchCmd) :
    Except RedisErr RedisDb :=
  match safeGuard enabled ready inj with
  | some e => Except.error e
  | none => Except.ok (execBatchDb db cmds)

/-- The trailing `.catch` of a public method: any rejection becomes the
benign default. -/
def pCatch {α : Type} (x : Except RedisErr α) (dflt : α) : Except RedisErr α :=
  match x with
  | Except.error _ => Except.ok dflt
  | Except.ok v => Except.ok v

/-- `.catch` over a result-state pair: the state reached so far is kept. -/
def caught {α : Type} (p : Except RedisErr α × RedisManager) (dflt : α) :
    Except RedisErr α × RedisManager :=
  (pCatch p.1 dflt, p.2)

def resolves {α : Type} (x : Except RedisErr α) : Bool :=
  match x with
  | Except.ok _ => true
  | Except.error _ => false

theorem resolves_pCatch {α : Type} (x : Except RedisErr α) (dflt : α) :
    resolves (pCatch x dflt) = true := by
  cases x <;> rfl

/-! ### The public methods -/

/-- `getCachedResponse`: `hget` the url field of the expiry-key hash;
a falsy (missing or empty) stored value yields null, a malformed payload
or any store failure is swallowed into null. -/
def getCachedResponse (s : RedisManager) (inj : Bool) (expiryKey url : String) :
    Except RedisErr (Option CacheableResponse) × RedisManager :=
  caught
    (match safeHget s.enabled s.opsReady inj s.opsDb expiryKey url with
     | Except.error e => (Except.error e, s)
     | Except.ok none => (Except.ok none, s)
     | Except.ok (some serializedResponse) =>
       if serializedResponse = "" then (Except.ok none, s)
       else
         match deserializeResponse serializedResponse with
         | some response => (Except.ok (some response), s)
         | none => (Except.error RedisErr.decodeError, s))
    none

/-- `setCachedResponse`: serialize, check `exists`, `hset` the field, and
`expire` the hash only when it did not previously exist; failures are
swallowed, keeping whatever had been written. -/
def setCachedResponse (s : RedisManager) (injExists injHset injExpire : Bool)
    (expiryKey url : String) (response : CacheableResponse) :
    Except RedisErr Unit × RedisManager :=
  caught
    (match safeExists s.enabled s.opsReady injExists s.opsDb expiryKey with
     | Except.error e => (Except.error e, s)
     | Except.ok isExisting =>
       match safeHset s.enabled s.opsReady injHset s.opsDb expiryKey url
           (serializeResponse response) with
       | Except.error e => (Except.error e, s)
       | Except.ok db1 =>
         if isExisting == 0 then
           match safeExpire s.enabled s.opsReady injExpire db1 expiryKey
               RedisManager.DEFAULT_EXPIRY with
           | Except.error e => (Except.error e, { s with opsDb := db1 })
           | Except.ok db2 => (Except.ok (), { s with opsDb := db2 })
         else (Except.ok (), { s with opsDb := db1 }))
    ()

/-- `invalidateCache`: resolves immediately when disabled, otherwise
deletes the whole hash, swallowing failures. -/
def invalidateCache (s : RedisManager) (inj : Bool) (expiryKey : String) :
    Except RedisErr Unit × RedisManager :=
  if s.enabled then
    caught
      (match safeDel s.enabled s.opsReady inj s.opsDb [expiryKey] with
       | Except.error e => (Except.error e, s)
       | Except.ok db2 => (Except.ok (), { s with opsDb := db2 }))
      ()
  else (Except.ok (), s)

/-- `incrementLabelStatusCount`: after metrics setup, `hincrby` the
status field (possibly null for an unrecognized status) by 1. -/
def incrementLabelStatusCount (s : RedisManager) (setupInj cmdInj : Bool)
    (deploymentKey label status : String) : Except RedisErr Unit × RedisManager :=
  caught
    (match ensureMetricsSetup s setupInj with
     | (Except.error e, s1) => (Except.error e, s1)
     | (Except.ok _, s1) =>
       match safeHincrby s1.enabled s1.metricsReady cmdInj s1.metricsDb
           (Utilities.getDeploymentKeyLabelsHash deploymentKey)
           (Utilities.getLabelStatusField label status) 1 with
       | Except.error e => (Except.error e, s1)
       | Except.ok (db2, _) => (Except.ok (), { s1 with metricsDb := db2 }))
    ()

/-- `clearMetricsForDeploymentKey`: deletes the label-counters hash and
the client-labels hash in one `del`. -/
def clearMetricsForDeploymentKey (s : RedisManager) (setupInj cmdInj : Bool)
    (deploymentKey : String) : Except RedisErr Unit × RedisManager :=
  caught
    (match ensureMetricsSetup s setupInj with
     | (Except.error e, s1) => (Except.error e, s1)
     | (Except.ok _, s1) =>
       match safeDel s1.enabled s1.metricsReady cmdInj s1.metricsDb
           [Utilities.getDeploymentKeyLabelsHash deploymentKey,
            Utilities.getDeploymentKeyClientsHash deploymentKey] with
       | Except.error e => (Except.error e, s1)
       | Except.ok db2 => (Except.ok (), { s1 with metricsDb := db2 }))
    ()

/-- A returned metrics field: either coerced to a number or passed
through as a string. -/
inductive MetricVal where
  | num (value : Rat)
  | str (value : String)
deriving DecidableEq

/-- The per-field conversion of `getMetricsWithDeploymentKey`: a value
that is not NaN under the platform coercion is replaced by its number. -/
def convertMetricValue (v : String) : MetricVal :=
  match jsToNumber v with
  | some q => MetricVal.num q
  | none => MetricVal.str v

/-- `getMetricsWithDeploymentKey`: `hgetall` on the label-counters hash,
then numeric fields are parsed; null from the store stays null; failures
are swallowed into null. -/
def getMetricsWithDeploymentKey (s : RedisManager) (setupInj cmdInj : Bool)
    (deploymentKey : String) :
    Except RedisErr (Option (List (String × MetricVal))) × RedisManager :=
  caught
    (match ensureMetricsSetup s setupInj with
     | (Except.error e, s1) => (Except.error e, s1)
     | (Except.ok _, s1) =>
       match safeHgetall s1.enabled s1.metricsReady cmdInj s1.metricsDb
           (Utilities.getDeploymentKeyLabelsHash deploymentKey) with
       | Except.error e => (Except.error e, s1)
       | Except.ok none => (Except.ok none, s1)
       | Except.ok (some metrics) =>
         (Except.ok (some (metrics.map (fun p => (p.1, convertMetricValue p.2)))), s1))
    none

/-- The batch queued by `recordUpdate`: increment the current label's
Active and DeploymentSucceeded fields; when the previous key and label are
both truthy, also decrement the previous label's Active field. -/
def recordUpdateBatch (currentDeploymentKey currentLabel : String)
    (previousDeploymentKey previousLabel : Option String) : List BatchCmd :=
  if truthy previousDeploymentKey && truthy previousLabel then
    [BatchCmd.hincrby (Utilities.getDeploymentKeyLabelsHash currentDeploymentKey)
       (Utilities.getLabelActiveCountField currentLabel) 1,
     BatchCmd.hincrby (Utilities.getDeploymentKeyLabelsHash currentDeploymentKey)
       (Utilities.getLabelStatusField currentLabel DEPLOYMENT_SUCCEEDED) 1,
     BatchCmd.hincrby
       (Utilities.getDeploymentKeyLabelsHash (previousDeploymentKey.getD ""))
       (Utilities.getLabelActiveCountField (previousLabel.getD "")) (-1)]
  else
    [BatchCmd.hincrby (Utilities.getDeploymentKeyLabelsHash currentDeploymentKey)
       (Utilities.getLabelActiveCountField currentLabel) 1,
     BatchCmd.hincrby (Utilities.getDeploymentKeyLabelsHash currentDeploymentKey)
       (Utilities.getLabelStatusField currentLabel DEPLOYMENT_SUCCEEDED) 1]

/-- `recordUpdate`: after metrics setup, submit the batch in one step;
failures are swallowed. -/
def recordUpdate (s : RedisManager) (setupInj batchInj : Bool)
    (currentDeploymentKey currentLabel : String)
    (previousDeploymentKey previousLabel : Option String) :
    Except RedisErr Unit × RedisManager :=
  caught
    (match ensureMetricsSetup s setupInj with
     | (Except.error e, s1) => (Except.error e, s1)
     | (Except.ok _, s1) =>
       match safeExecBatch s1.enabled s1.metricsReady batchInj s1.metricsDb
           (recordUpdateBatch currentDeploymentKey currentLabel
             previousDeploymentKey previousLabel) with
       | Except.error e => (Except.error e, s1)
       | Except.ok db2 => (Except.ok (), { s1 with metricsDb := db2 }))
    ()

/-- `removeDeploymentKeyClientActiveLabel`: `hdel` the client field of the
client-labels hash. -/
def removeDeploymentKeyClientActiveLabel (s : RedisManager) (setupInj cmdInj : Bool)
    (deploymentKey clientUniqueId : String) : Except RedisErr Unit × RedisManager :=
  caught
    (match ensureMetricsSetup s setupInj with
     | (Except.error e, s1) => (Except.error e, s1)
     | (Except.ok _, s1) =>
       match safeHdel s1.enabled s1.metricsReady cmdInj s1.metricsDb
           (Utilities.getDeploymentKeyClientsHash deploymentKey) clientUniqueId with
       | Except.error e => (Except.error e, s1)
       | Except.ok db2 => (Except.ok (), { s1 with metricsDb := db2 }))
    ()

/-- `getCurrentActiveLabel` (deprecated): `hget` the client's label,
failures swallowed into null. -/
def getCurrentActiveLabel (s : RedisManager) (setupInj cmdInj : Bool)
    (deploymentKey clientUniqueId : String) :
    Except RedisErr (Option String) × RedisManager :=
  caught
    (match ensureMetricsSetup s setupInj with
     | (Except.error e, s1) => (Except.error e, s1)
     | (Except.ok _, s1) =>
       match safeHget s1.enabled s1.metricsReady cmdInj s1.metricsDb
           (Utilities.getDeploymentKeyClientsHash deploymentKey) clientUniqueId with
       | Except.error e => (Except.error e, s1)
       | Except.ok v => (Except.ok v, s1))
    none

/-- The batch queued by `updateActiveAppForClient` (deprecated). -/
def updateActiveAppForClientBatch (deploymentKey clientUniqueId toLabel : String)
    (fromLabel : Option String) : List BatchCmd :=
  if truthy fromLabel then
    [BatchCmd.hset (Utilities.getDeploymentKeyClientsHash deploymentKey)
       clientUniqueId toLabel,
     BatchCmd.hincrby (Utilities.getDeploymentKeyLabelsHash deploymentKey)
       (Utilities.getLabelActiveCountField toLabel) 1,
     BatchCmd.hincrby (Utilities.getDeploymentKeyLabelsHash deploymentKey)
       (Utilities.getLabelActiveCountField (fromLabel.getD "")) (-1)]
  else
    [BatchCmd.hset (Utilities.getDeploymentKeyClientsHash deploymentKey)
       clientUniqueId toLabel,
     BatchCmd.hincrby (Utilities.getDeploymentKeyLabelsHash deploymentKey)
       (Utilities.getLabelActiveCountField toLabel) 1]

/-- `updateActiveAppForClient` (deprecated): submit the client-label batch
in one step; failures are swallowed. -/
def updateActiveAppForClient (s : RedisManager) (setupInj batchInj : Bool)
    (deploymentKey clientUniqueId toLabel : String) (fromLabel : Option String) :
    Except RedisErr Unit × RedisManager :=
  caught
    (match ensureMetricsSetup s setupInj with
     | (Except.error e, s1) => (Except.error e, s1)
     | (Except.ok _, s1) =>
       match safeExecBatch s1.enabled s1.metricsReady batchInj s1.metricsDb
           (updateActiveAppForClientBatch deploymentKey clientUniqueId toLabel
             fromLabel) with
       | Except.error e => (Except.error e, s1)
       | Except.ok db2 => (Except.ok (), { s1 with metricsDb := db2 }))
    ()

/-! ### Lemmas about the setup machinery and the wrappers -/

theorem ensureMetricsSetup_disabled (s : RedisManager) (inj : Bool)
    (h : s.enabled = false) :
    ensureMetricsSetup s inj = (Except.error RedisErr.notEnabled, s) := by
  simp [ensureMetricsSetup, h]

theorem ensureMetricsSetup_memo (s : RedisManager) (fid : Nat) (inj : Bool)
    (hEn : s.enabled = true) (hCell : s.setupCell = some fid) :
    ensureMetricsSetup s inj = (Except.ok fid, s) := by
  simp [ensureMetricsSetup, hEn, hCell]

theorem ensureMetricsSetup_notReady (s : RedisManager) (inj : Bool)
    (hEn : s.enabled = true) (hRdy : s.metricsReady = false) (hCell : s.setupCell = none) :
    ensureMetricsSetup s inj = (Except.error RedisErr.notReady, s) := by
  simp [ensureMetricsSetup, hEn, hRdy, hCell]

theorem ensureMetricsSetup_fresh (s : RedisManager)
    (hEn : s.enabled = true) (hRdy : s.metricsReady = true) (hCell : s.setupCell = none) :
    ensureMetricsSetup s false
      = (Except.ok s.nextId,
         { s with setupCell := some s.nextId, nextId := s.nextId + 1,
                  setupAttempts := s.setupAttempts + 1 }) := by
  simp [ensureMetricsSetup, hEn, hRdy, hCell]

theorem ensureMetricsSetup_fail (s : RedisManager)
    (hEn : s.enabled = true) (hRdy : s.metricsReady = true) (hCell : s.setupCell = none) :
    ensureMetricsSetup s true
      = (Except.error RedisErr.storeError,
         { s with setupAttempts := s.setupAttempts + 1 }) := by
  simp [ensureMetricsSetup, hEn, hRdy, hCell]

theorem ensureMetricsSetup_run (s : RedisManager)
    (hEn : s.enabled = true) (hRdy : s.metricsReady = true) :
    ∃ f s1, ensureMetricsSetup s false = (Except.ok f, s1)
      ∧ s1.enabled = true ∧ s1.opsReady = s.opsReady ∧ s1.metricsReady = true
      ∧ s1.opsDb = s.opsDb ∧ s1.metricsDb = s.metricsDb := by
  cases hCell : s.setupCell with
  | some fid =>
    exact ⟨fid, s, ensureMetricsSetup_memo s fid false hEn hCell, hEn, rfl, hRdy, rfl, rfl⟩
  | none =>
    exact ⟨s.nextId, _, ensureMetricsSetup_fresh s hEn hRdy hCell, hEn, rfl, hRdy, rfl, rfl⟩

theorem safeGuard_ok : safeGuard true true false = none := rfl

theorem safeGuard_disabled (ready inj : Bool) :
    safeGuard false ready inj = some RedisErr.notReady := rfl

theorem hincrbyDb_counter (db : RedisDb) (key field : String) (v n : Int)
    (h : counterVal db key field = some n) :
    hincrbyDb db key field v
      = Except.ok (hsetDb db key field (intToString (n + v)), n + v) := by
  unfold counterVal at h
  cases hval : hget db key field with
  | none =>
    rw [hval] at h
    simp only [Option.some.injEq] at h
    subst h
    simp [hincrbyDb, hval]
  | some str =>
    simp only [hval] at h
    cases hp : redisParseInt str with
    | none =>
      rw [hp] at h
      exact absurd h (by simp)
    | some m =>
      rw [hp] at h
      simp only [Option.some.injEq] at h
      subst h
      simp [hincrbyDb, hval, hp]

/-! ### Distinctness of field and hash names -/

theorem string_append_right_inj (a b c : String) (h : a ++ c = b ++ c) : a = b := by
  apply string_data_inj
  have hd := congrArg String.data h
  rw [string_data_append, string_data_append] at hd
  exact List.append_cancel_right hd

theorem label_active_field_inj (l1 l2 : String)
    (h : l1 ++ ":" ++ ACTIVE = l2 ++ ":" ++ ACTIVE) : l1 = l2 :=
  string_append_right_inj _ _ _ (string_append_right_inj _ _ _ h)

theorem labels_hash_inj (k1 k2 : String)
    (h : Utilities.getDeploymentKeyLabelsHash k1 = Utilities.getDeploymentKeyLabelsHash k2) :
    k1 = k2 := by
  unfold Utilities.getDeploymentKeyLabelsHash at h
  apply string_data_inj
  have hd := congrArg String.data h
  rw [string_data_append, string_data_append] at hd
  exact List.append_cancel_left hd

theorem append_getLast_ne (a b t u : String) (hne : t.data.getLast? ≠ u.data.getLast?)
    (ht : t.data ≠ []) (hu : u.data ≠ []) : a ++ t ≠ b ++ u := by
  intro h
  apply hne
  have hd := congrArg String.data h
  rw [string_data_append, string_data_append] at hd
  have h1 := congrArg List.getLast? hd
  rw [List.getLast?_append_of_ne_nil _ ht, List.getLast?_append_of_ne_nil _ hu] at h1
  exact h1

theorem label_active_ne_succeeded (l1 l2 : String) :
    l1 ++ ":" ++ ACTIVE ≠ l2 ++ ":" ++ DEPLOYMENT_SUCCEEDED :=
  append_getLast_ne (l1 ++ ":") (l2 ++ ":") ACTIVE DEPLOYMENT_SUCCEEDED
    (by decide) (by decide) (by decide)

theorem ensureMetricsSetup_metricsDb (s : RedisManager) (inj : Bool) :
    ((ensureMetricsSetup s inj).2).metricsDb = s.metricsDb := by
  cases hEn : s.enabled
  · rw [ensureMetricsSetup_disabled s inj hEn]
  · cases hCell : s.setupCell with
    | some fid => rw [ensureMetricsSetup_memo s fid inj hEn hCell]
    | none =>
      cases hRdy : s.metricsReady
      · rw [ensureMetricsSetup_notReady s inj hEn hRdy hCell]
      · cases inj
        · rw [ensureMetricsSetup_fresh s hEn hRdy hCell]
        · rw [ensureMetricsSetup_fail s hEn hRdy hCell]

/-- A manager in its fully ready, already-set-up configuration, used to
instantiate the claim theorems on concrete inputs. -/
def demoState : RedisManager :=
  RedisManager.mk true true true (some 0) 1 1 emptyDb emptyDb

/-! ### Claim theorems -/

/-- C2: every public method of the response cache and metrics aggregator
resolves rather than rejects.  The quantification over the manager state
covers the not-configured and not-ready failures, the injected booleans
cover store/transport and metrics-setup failures, and the quantification
over the stored data covers deserialization failures; in each case reads
resolve to null and writes resolve with no further effect. -/
theorem claim_C2_never_rejects : ∀ (s : RedisManager) (i1 i2 i3 : Bool)
    (expiryKey url deploymentKey label status clientUniqueId toLabel : String)
    (response : CacheableResponse)
    (previousDeploymentKey previousLabel fromLabel : Option String),
    resolves (getCachedResponse s i1 expiryKey url).1 = true
    ∧ resolves (setCachedResponse s i1 i2 i3 expiryKey url response).1 = true
    ∧ resolves (invalidateCache s i1 expiryKey).1 = true
    ∧ resolves (incrementLabelStatusCount s i1 i2 deploymentKey label status).1 = true
    ∧ resolves (recordUpdate s i1 i2 deploymentKey label
        previousDeploymentKey previousLabel).1 = true
    ∧ resolves (getMetricsWithDeploymentKey s i1 i2 deploymentKey).1 = true
    ∧ resolves (clearMetricsForDeploymentKey s i1 i2 deploymentKey).1 = true
    ∧ resolves (removeDeploymentKeyClientActiveLabel s i1 i2 deploymentKey
        clientUniqueId).1 = true
    ∧ resolves (getCurrentActiveLabel s i1 i2 deploymentKey clientUniqueId).1 = true
    ∧ resolves (updateActiveAppForClient s i1 i2 deploymentKey clientUniqueId
        toLabel fromLabel).1 = true := by
  intro s i1 i2 i3 expiryKey url deploymentKey label status clientUniqueId toLabel
    response previousDeploymentKey previousLabel fromLabel
  refine ⟨resolves_pCatch _ _, resolves_pCatch _ _, ?_, resolves_pCatch _ _,
    resolves_pCatch _ _, resolves_pCatch _ _, resolves_pCatch _ _, resolves_pCatch _ _,
    resolves_pCatch _ _, resolves_pCatch _ _⟩
  unfold invalidateCache
  split
  · exact resolves_pCatch _ _
  · rfl

/-- C7 as stated is refuted at a present-but-empty host value: neither
configuration entry is absent, yet `isEnabled` is false, because the
source tests the configuration with JS truthiness. -/
theorem claim_C7_counterexample :
    isEnabled (mkRedisManager (some "") (some "6379")) = false
    ∧ (some "" : Option String) ≠ none
    ∧ (some "6379" : Option String) ≠ none := by
  refine ⟨by decide, by decide, by decide⟩

/-- C7 (amended): `isEnabled` is false iff the host or the port
configuration is absent or empty (JS-falsy), and whenever the manager is
disabled every public operation resolves to its benign default with the
manager state — in particular both databases — unchanged, the readiness
guard rejecting before any store command is attempted. -/
theorem claim_C7_amended :
    (∀ redisHost redisPort : Option String,
      isEnabled (mkRedisManager redisHost redisPort)
        = (truthy redisHost && truthy redisPort))
    ∧ ∀ (s : RedisManager) (i1 i2 i3 : Bool)
        (expiryKey url deploymentKey label status clientUniqueId toLabel : String)
        (response : CacheableResponse)
        (previousDeploymentKey previousLabel fromLabel : Option String),
        s.enabled = false →
        getCachedResponse s i1 expiryKey url = (Except.ok none, s)
        ∧ setCachedResponse s i1 i2 i3 expiryKey url response = (Except.ok (), s)
        ∧ invalidateCache s i1 expiryKey = (Except.ok (), s)
        ∧ incrementLabelStatusCount s i1 i2 deploymentKey label status
            = (Except.ok (), s)
        ∧ recordUpdate s i1 i2 deploymentKey label previousDeploymentKey previousLabel
            = (Except.ok (), s)
        ∧ getMetricsWithDeploymentKey s i1 i2 deploymentKey = (Except.ok none, s)
        ∧ clearMetricsForDeploymentKey s i1 i2 deploymentKey = (Except.ok (), s)
        ∧ removeDeploymentKeyClientActiveLabel s i1 i2 deploymentKey clientUniqueId
            = (Except.ok (), s)
        ∧ getCurrentActiveLabel s i1 i2 deploymentKey clientUniqueId
            = (Except.ok none, s)
        ∧ updateActiveAppForClient s i1 i2 deploymentKey clientUniqueId toLabel fromLabel
            = (Except.ok (), s) := by
  constructor
  · intro redisHost redisPort
    unfold mkRedisManager isEnabled
    split
    · next hc => simp [hc]
    · next hc =>
      simp only [Bool.not_eq_true] at hc
      simp [hc]
  · intro s i1 i2 i3 expiryKey url deploymentKey label status clientUniqueId toLabel
      response previousDeploymentKey previousLabel fromLabel hdis
    have hg : ∀ r j : Bool, safeGuard s.enabled r j = some RedisErr.notReady := by
      intro r j
      rw [hdis]
      rfl
    refine ⟨?_, ?_, ?_, ?_, ?_, ?_, ?_, ?_, ?_, ?_⟩
    · simp [getCachedResponse, safeHget, hg, caught, pCatch]
    · simp [setCachedResponse, safeExists, hg, caught, pCatch]
    · simp [invalidateCache, hdis]
    · simp [incrementLabelStatusCount, ensureMetricsSetup, hdis, caught, pCatch]
    · simp [recordUpdate, ensureMetricsSetup, hdis, caught, pCatch]
    · simp [getMetricsWithDeploymentKey, ensureMetricsSetup, hdis, caught, pCatch]
    · simp [clearMetricsForDeploymentKey, ensureMetricsSetup, hdis, caught, pCatch]
    · simp [removeDeploymentKeyClientActiveLabel, ensureMetricsSetup, hdis, caught, pCatch]
    · simp [getCurrentActiveLabel, ensureMetricsSetup, hdis, caught, pCatch]
    · simp [updateActiveAppForClient, ensureMetricsSetup, hdis, caught, pCatch]

theorem claim_C7_amended_witness :
    (mkRedisManager none none).enabled = false
    ∧ getCachedResponse (mkRedisManager none none) false "k" "u"
        = (Except.ok none, mkRedisManager none none) :=
  ⟨by decide,
   (claim_C7_amended.2 (mkRedisManager none none) false false false "k" "u" "dk" "l"
     "st" "cid" "to" (CacheableResponse.mk 200 "b") none none none (by decide)).1⟩

/-- C4: a status outside the three recognized values makes
`incrementLabelStatusCount` a no-op: the field constructor returns null,
the underlying client rejects the command, the rejection is swallowed,
and the metrics database — in particular the deployment's label-counters
hash — is unchanged. -/
theorem claim_C4_invalid_status_noop (s : RedisManager) (i1 i2 : Bool)
    (deploymentKey label status : String)
    (h : Utilities.isValidDeploymentStatus status = false) :
    (incrementLabelStatusCount s i1 i2 deploymentKey label status).1 = Except.ok ()
    ∧ ((incrementLabelStatusCount s i1 i2 deploymentKey label status).2).metricsDb
        = s.metricsDb := by
  have hfield : Utilities.getLabelStatusField label status = none := by
    simp [Utilities.getLabelStatusField, h]
  cases hrun : ensureMetricsSetup s i1 with
  | mk r s1 =>
    have hmdb : s1.metricsDb = s.metricsDb := by
      have hp := ensureMetricsSetup_metricsDb s i1
      rw [hrun] at hp
      exact hp
    cases r with
    | error e =>
      unfold incrementLabelStatusCount
      rw [hrun]
      simp [caught, pCatch, hmdb]
    | ok f =>
      have hsafe : ∃ e, safeHincrby s1.enabled s1.metricsReady i2 s1.metricsDb
          (Utilities.getDeploymentKeyLabelsHash deploymentKey) none 1
            = Except.error e := by
        unfold safeHincrby
        cases safeGuard s1.enabled s1.metricsReady i2 with
        | some e => exact ⟨e, rfl⟩
        | none => exact ⟨RedisErr.clientError, rfl⟩
      obtain ⟨e, he⟩ := hsafe
      rw [hmdb] at he
      unfold incrementLabelStatusCount
      rw [hrun, hfield]
      simp [caught, pCatch, he, hmdb]

theorem claim_C4_witness :
    Utilities.isValidDeploymentStatus "Rollback" = false
    ∧ ((incrementLabelStatusCount demoState false false "dk" "v1" "Rollback").1
        = Except.ok ()
      ∧ ((incrementLabelStatusCount demoState false false "dk" "v1" "Rollback").2).metricsDb
        = demoState.metricsDb) :=
  ⟨by decide,
   claim_C4_invalid_status_noop demoState false false "dk" "v1" "Rollback" (by decide)⟩

/-- A sequence of `ensureMetricsSetup` calls, threading the manager state
and the per-attempt outcome injections. -/
def ensureMetricsSetupRuns :
    RedisManager → List Bool → List (Except RedisErr Nat) × RedisManager
  | s, [] => ([], s)
  | s, b :: bs =>
    let r1 := ensureMetricsSetup s b
    let rest := ensureMetricsSetupRuns r1.2 bs
    (r1.1 :: rest.1, rest.2)

/-- C6: the metrics setup happens at most once when it succeeds.  While a
setup future is memoized, every call — whatever its injected outcome would
have been — returns that same future and leaves the state (including the
attempt counter) unchanged; a fresh successful attempt memoizes its future
and counts one attempt; a failed attempt leaves the cell empty so the next
call starts a fresh attempt. -/
theorem claim_C6_setup_memoized :
    (∀ (s : RedisManager) (fid : Nat) (injs : List Bool),
      s.enabled = true → s.setupCell = some fid →
      ensureMetricsSetupRuns s injs = (injs.map (fun _ => Except.ok fid), s))
    ∧ (∀ s : RedisManager, s.enabled = true → s.metricsReady = true →
        s.setupCell = none →
        ensureMetricsSetup s false
          = (Except.ok s.nextId,
             { s with setupCell := some s.nextId, nextId := s.nextId + 1,
                      setupAttempts := s.setupAttempts + 1 }))
    ∧ (∀ s : RedisManager, s.enabled = true → s.metricsReady = true →
        s.setupCell = none →
        ensureMetricsSetup s true
          = (Except.error RedisErr.storeError,
             { s with setupAttempts := s.setupAttempts + 1 })
        ∧ ({ s with setupAttempts := s.setupAttempts + 1 } : RedisManager).setupCell
            = none) := by
  refine ⟨?_, ?_, ?_⟩
  · intro s fid injs hEn hCell
    induction injs with
    | nil => rfl
    | cons b bs ih =>
      unfold ensureMetricsSetupRuns
      rw [ensureMetricsSetup_memo s fid b hEn hCell]
      simp [ih]
  · intro s hEn hRdy hCell
    exact ensureMetricsSetup_fresh s hEn hRdy hCell
  · intro s hEn hRdy hCell
    exact ⟨ensureMetricsSetup_fail s hEn hRdy hCell, hCell⟩

theorem claim_C6_witness :
    demoState.enabled = true ∧ demoState.setupCell = some 0
    ∧ ensureMetricsSetupRuns demoState [false, true, false]
        = ([Except.ok 0, Except.ok 0, Except.ok 0], demoState) :=
  ⟨by decide, by decide,
   claim_C6_setup_memoized.1 demoState 0 [false, true, false] (by decide) (by decide)⟩

/-- What a successful `setCachedResponse` run does to the store: the field
is written, and the TTL is attached exactly when the hash did not already
exist. -/
theorem setCachedResponse_spec (s : RedisManager) (expiryKey url : String)
    (response : CacheableResponse)
    (hEn : s.enabled = true) (hOps : s.opsReady = true) :
    ∃ db2, setCachedResponse s false false false expiryKey url response
        = (Except.ok (), { s with opsDb := db2 })
      ∧ db2.hashes = (hsetDb s.opsDb expiryKey url (serializeResponse response)).hashes
      ∧ (existsDb s.opsDb expiryKey = true → db2.ttls = s.opsDb.ttls)
      ∧ (existsDb s.opsDb expiryKey = false →
          aget db2.ttls expiryKey = some RedisManager.DEFAULT_EXPIRY
          ∧ ∀ k2, k2 ≠ expiryKey → aget db2.ttls k2 = aget s.opsDb.ttls k2) := by
  have hguard : safeGuard s.enabled s.opsReady false = none := by
    rw [hEn, hOps]
    rfl
  have h1 : safeExists s.enabled s.opsReady false s.opsDb expiryKey
      = Except.ok (if existsDb s.opsDb expiryKey then 1 else 0) := by
    unfold safeExists
    rw [hguard]
  have h2 : safeHset s.enabled s.opsReady false s.opsDb expiryKey url
      (serializeResponse response)
      = Except.ok (hsetDb s.opsDb expiryKey url (serializeResponse response)) := by
    unfold safeHset
    rw [hguard]
  have h3 : ∀ db k, safeExpire s.enabled s.opsReady false db k RedisManager.DEFAULT_EXPIRY
      = Except.ok (expireDb db k RedisManager.DEFAULT_EXPIRY) := by
    intro db k
    unfold safeExpire
    rw [hguard]
  cases hex : existsDb s.opsDb expiryKey
  · refine ⟨expireDb (hsetDb s.opsDb expiryKey url (serializeResponse response))
      expiryKey RedisManager.DEFAULT_EXPIRY, ?_, hashes_expireDb _ _ _, ?_, ?_⟩
    · unfold setCachedResponse
      rw [hex] at h1
      simp only [Bool.false_eq_true, if_false] at h1
      rw [h1, h2]
      simp [h3, caught, pCatch]
    · intro hcontra
      simp at hcontra
    · intro _
      have hex1 : existsDb (hsetDb s.opsDb expiryKey url (serializeResponse response))
          expiryKey = true := by
        unfold existsDb hsetDb
        simp [aget_aset_self]
      unfold expireDb
      rw [hex1]
      constructor
      · simp [ttls_hsetDb, aget_aset_self]
      · intro k2 hk2
        simp [ttls_hsetDb, aget_aset_ne _ _ _ _ hk2]
  · refine ⟨hsetDb s.opsDb expiryKey url (serializeResponse response), ?_, rfl, ?_, ?_⟩
    · unfold setCachedResponse
      rw [hex] at h1
      simp only [if_true] at h1
      rw [h1, h2]
      simp [caught, pCatch]
    · intro _
      exact ttls_hsetDb _ _ _ _
    · intro hcontra
      simp at hcontra

/-- C5: the TTL (`DEFAULT_EXPIRY`, 3600 seconds) is attached to the cache
hash only when the `exists` check observed a missing hash; a
`setCachedResponse` on an already-existing hash leaves every TTL untouched
(never refreshed). -/
theorem claim_C5_ttl_only_when_new (s : RedisManager) (expiryKey url : String)
    (response : CacheableResponse)
    (hEn : s.enabled = true) (hOps : s.opsReady = true) :
    (existsDb s.opsDb expiryKey = true →
      (((setCachedResponse s false false false expiryKey url response).2).opsDb).ttls
        = s.opsDb.ttls)
    ∧ (existsDb s.opsDb expiryKey = false →
      aget (((setCachedResponse s false false false expiryKey url response).2).opsDb).ttls
          expiryKey = some RedisManager.DEFAULT_EXPIRY
      ∧ ∀ k2, k2 ≠ expiryKey →
          aget (((setCachedResponse s false false false expiryKey url response).2).opsDb).ttls
            k2 = aget s.opsDb.ttls k2) := by
  obtain ⟨db2, heq, hh, ht1, ht2⟩ := setCachedResponse_spec s expiryKey url response hEn hOps
  rw [heq]
  exact ⟨ht1, ht2⟩

theorem claim_C5_witness :
    demoState.enabled = true ∧ demoState.opsReady = true
    ∧ existsDb demoState.opsDb "ek" = false
    ∧ aget (((setCachedResponse demoState false false false "ek" "u"
        (CacheableResponse.mk 200 "b")).2).opsDb).ttls "ek"
        = some RedisManager.DEFAULT_EXPIRY :=
  ⟨by decide, by decide, by decide,
   ((claim_C5_ttl_only_when_new demoState "ek" "u" (CacheableResponse.mk 200 "b")
     (by decide) (by decide)).2 (by decide)).1⟩

theorem getCachedResponse_found (s : RedisManager) (expiryKey url : String)
    (response : CacheableResponse)
    (hEn : s.enabled = true) (hOps : s.opsReady = true)
    (hg : hget s.opsDb expiryKey url = some (serializeResponse response)) :
    (getCachedResponse s false expiryKey url).1 = Except.ok (some response) := by
  have hguard : safeGuard s.enabled s.opsReady false = none := by
    rw [hEn, hOps]
    rfl
  unfold getCachedResponse safeHget
  rw [hguard, hg]
  simp [caught, pCatch, serializeResponse_ne_empty response, deserialize_serialize response]

theorem getCachedResponse_missing (s : RedisManager) (expiryKey url : String)
    (hEn : s.enabled = true) (hOps : s.opsReady = true)
    (hg : hget s.opsDb expiryKey url = none) :
    (getCachedResponse s false expiryKey url).1 = Except.ok none := by
  have hguard : safeGuard s.enabled s.opsReady false = none := by
    rw [hEn, hOps]
    rfl
  unfold getCachedResponse safeHget
  rw [hguard, hg]
  simp [caught, pCatch]

/-- C3: with the store available, a `setCachedResponse` followed by a
`getCachedResponse` of the same expiry key and url (no TTL elapses in this
sequential run) returns a structurally equal response, and a get of any
other, unwritten url under the same expiry key returns null. -/
theorem claim_C3_set_get_roundtrip (s : RedisManager) (expiryKey url : String)
    (response : CacheableResponse)
    (hEn : s.enabled = true) (hOps : s.opsReady = true) :
    (getCachedResponse ((setCachedResponse s false false false expiryKey url response).2)
        false expiryKey url).1 = Except.ok (some response)
    ∧ ∀ url2, url2 ≠ url → hget s.opsDb expiryKey url2 = none →
      (getCachedResponse ((setCachedResponse s false false false expiryKey url response).2)
          false expiryKey url2).1 = Except.ok none := by
  obtain ⟨db2, heq, hh, ht1, ht2⟩ := setCachedResponse_spec s expiryKey url response hEn hOps
  rw [heq]
  have hgot : hget db2 expiryKey url = some (serializeResponse response) := by
    unfold hget
    rw [hh]
    exact hget_hsetDb_same s.opsDb expiryKey url (serializeResponse response)
  constructor
  · exact getCachedResponse_found _ expiryKey url response hEn hOps hgot
  · intro url2 hne hnone
    have hmiss : hget db2 expiryKey url2 = none := by
      unfold hget
      rw [hh]
      have hstep := hget_hsetDb_ne s.opsDb expiryKey url (serializeResponse response)
        expiryKey url2 (Or.inr hne)
      unfold hget at hstep
      rw [hstep]
      unfold hget at hnone
      exact hnone
    exact getCachedResponse_missing _ expiryKey url2 hEn hOps hmiss

theorem claim_C3_witness :
    demoState.enabled = true ∧ demoState.opsReady = true
    ∧ (getCachedResponse ((setCachedResponse demoState false false false "v1"
        "https://host/updateCheck" (CacheableResponse.mk 200 "ok")).2) false "v1"
        "https://host/updateCheck").1
      = Except.ok (some (CacheableResponse.mk 200 "ok")) :=
  ⟨by decide, by decide,
   (claim_C3_set_get_roundtrip demoState "v1" "https://host/updateCheck"
     (CacheableResponse.mk 200 "ok") (by decide) (by decide)).1⟩

theorem incrementLabelStatusCount_counter (s : RedisManager)
    (deploymentKey label status : String) (n : Int)
    (hEn : s.enabled = true) (hRdy : s.metricsReady = true)
    (hst : Utilities.isValidDeploymentStatus status = true)
    (hc : counterVal s.metricsDb (Utilities.getDeploymentKeyLabelsHash deploymentKey)
        (label ++ ":" ++ status) = some n) :
    (incrementLabelStatusCount s false false deploymentKey label status).1 = Except.ok ()
    ∧ counterVal
        ((incrementLabelStatusCount s false false deploymentKey label status).2).metricsDb
        (Utilities.getDeploymentKeyLabelsHash deploymentKey) (label ++ ":" ++ status)
        = some (n + 1) := by
  obtain ⟨f, s1, heq, hen1, hops1, hrdy1, hodb1, hmdb1⟩ := ensureMetricsSetup_run s hEn hRdy
  have hfield : Utilities.getLabelStatusField label status
      = some (label ++ ":" ++ status) := by
    simp [Utilities.getLabelStatusField, hst]
  have hinc := hincrbyDb_counter s.metricsDb
    (Utilities.getDeploymentKeyLabelsHash deploymentKey) (label ++ ":" ++ status) 1 n hc
  unfold incrementLabelStatusCount safeHincrby
  rw [heq, hfield]
  simp [caught, pCatch, hen1, hrdy1, hmdb1, safeGuard, hinc, counterVal_hsetDb_same]

/-- C9: `incrementLabelStatusCount` validates only the status, never the
label: with a recognized status and the empty label it increments the
field `":<status>"` on the deployment's label-counters hash, whereas the
Active-count field constructor rejects the empty label and returns null —
label validation is asymmetric between the two field constructors. -/
theorem claim_C9_label_not_validated (s : RedisManager) (deploymentKey status : String)
    (n : Int) (hEn : s.enabled = true) (hRdy : s.metricsReady = true)
    (hst : Utilities.isValidDeploymentStatus status = true)
    (hc : counterVal s.metricsDb (Utilities.getDeploymentKeyLabelsHash deploymentKey)
        (":" ++ status) = some n) :
    Utilities.getLabelActiveCountField "" = none
    ∧ Utilities.getLabelStatusField "" status = some (":" ++ status)
    ∧ (incrementLabelStatusCount s false false deploymentKey "" status).1 = Except.ok ()
    ∧ counterVal
        ((incrementLabelStatusCount s false false deploymentKey "" status).2).metricsDb
        (Utilities.getDeploymentKeyLabelsHash deploymentKey) (":" ++ status)
        = some (n + 1) := by
  have hids : ("" ++ ":" ++ status : String) = ":" ++ status := by
    apply string_data_inj
    rw [string_data_append, string_data_append, string_data_append]
    rfl
  have h1 := incrementLabelStatusCount_counter s deploymentKey "" status n hEn hRdy hst
    (by rw [hids]; exact hc)
  rw [hids] at h1
  refine ⟨rfl, ?_, h1.1, h1.2⟩
  simp [Utilities.getLabelStatusField, hst, hids]

theorem claim_C9_witness :
    demoState.enabled = true ∧ demoState.metricsReady = true
    ∧ Utilities.isValidDeploymentStatus "Downloaded" = true
    ∧ counterVal demoState.metricsDb (Utilities.getDeploymentKeyLabelsHash "dep1")
        (":" ++ "Downloaded") = some 0
    ∧ (Utilities.getLabelActiveCountField "" = none
      ∧ Utilities.getLabelStatusField "" "Downloaded" = some (":" ++ "Downloaded")
      ∧ (incrementLabelStatusCount demoState false false "dep1" "" "Downloaded").1
          = Except.ok ()
      ∧ counterVal
          ((incrementLabelStatusCount demoState false false "dep1" "" "Downloaded").2).metricsDb
          (Utilities.getDeploymentKeyLabelsHash "dep1") (":" ++ "Downloaded")
          = some (0 + 1)) :=
  ⟨by decide, by decide, by decide, by decide,
   claim_C9_label_not_validated demoState "dep1" "Downloaded" 0 (by decide) (by decide)
     (by decide) (by decide)⟩

theorem getMetrics_run (s : RedisManager) (deploymentKey : String)
    (hsh : List (String × String))
    (hEn : s.enabled = true) (hRdy : s.metricsReady = true)
    (hHash : aget s.metricsDb.hashes (Utilities.getDeploymentKeyLabelsHash deploymentKey)
        = some hsh) :
    (getMetricsWithDeploymentKey s false false deploymentKey).1
      = Except.ok (some (hsh.map (fun p => (p.1, convertMetricValue p.2)))) := by
  obtain ⟨f, s1, heq, hen1, hops1, hrdy1, hodb1, hmdb1⟩ := ensureMetricsSetup_run s hEn hRdy
  unfold getMetricsWithDeploymentKey safeHgetall
  rw [heq]
  simp [hen1, hrdy1, hmdb1, safeGuard, hgetallDb, hHash, caught, pCatch]

/-- C8: with the store available and the label-counters hash present,
`getMetricsWithDeploymentKey` returns the full hash, field for field;
every field whose stored string is the decimal encoding of an integer is
returned as that number, and every field whose stored string is
non-numeric under the platform coercion is passed through unchanged as a
string. -/
theorem claim_C8_metrics_parsing (s : RedisManager) (deploymentKey : String)
    (hsh : List (String × String))
    (hEn : s.enabled = true) (hRdy : s.metricsReady = true)
    (hHash : aget s.metricsDb.hashes (Utilities.getDeploymentKeyLabelsHash deploymentKey)
        = some hsh) :
    (getMetricsWithDeploymentKey s false false deploymentKey).1
      = Except.ok (some (hsh.map (fun p => (p.1, convertMetricValue p.2))))
    ∧ ∀ field v, aget hsh field = some v →
        (∀ i : Int, v = intToString i →
          aget (hsh.map (fun p => (p.1, convertMetricValue p.2))) field
            = some (MetricVal.num ((i : Int) : Rat)))
        ∧ (jsToNumber v = none →
          aget (hsh.map (fun p => (p.1, convertMetricValue p.2))) field
            = some (MetricVal.str v)) := by
  refine ⟨getMetrics_run s deploymentKey hsh hEn hRdy hHash, ?_⟩
  intro field v hfv
  constructor
  · intro i hvi
    rw [aget_map hsh convertMetricValue field, hfv]
    subst hvi
    simp [convertMetricValue, jsToNumber_intToString]
  · intro hnan
    rw [aget_map hsh convertMetricValue field, hfv]
    simp [convertMetricValue, hnan]

/-- A manager whose metrics database holds a populated label-counters
hash, for instantiating the metrics-reading claims. -/
def metricsDemoState : RedisManager :=
  RedisManager.mk true true true (some 0) 1 1 emptyDb
    (RedisDb.mk
      [("deploymentKeyLabels:dep1",
        [("v1:Active", "3"), ("note", "abc"), ("blank", " ")])] [])

theorem claim_C8_witness :
    metricsDemoState.enabled = true ∧ metricsDemoState.metricsReady = true
    ∧ aget metricsDemoState.metricsDb.hashes
        (Utilities.getDeploymentKeyLabelsHash "dep1")
        = some [("v1:Active", "3"), ("note", "abc"), ("blank", " ")]
    ∧ (getMetricsWithDeploymentKey metricsDemoState false false "dep1").1
        = Except.ok (some ([("v1:Active", "3"), ("note", "abc"), ("blank", " ")].map
            (fun p => (p.1, convertMetricValue p.2)))) :=
  ⟨by decide, by decide, by decide,
   (claim_C8_metrics_parsing metricsDemoState "dep1"
     [("v1:Active", "3"), ("note", "abc"), ("blank", " ")] (by decide) (by decide)
     (by decide)).1⟩

/-- C10: a stored hash field whose value is the empty string or any
whitespace-only string is converted by `getMetricsWithDeploymentKey` to
the number 0 rather than passed through, because the platform numeric
test classifies such strings as numeric (coercing them to 0). -/
theorem claim_C10_whitespace_to_zero (s : RedisManager) (deploymentKey : String)
    (hsh : List (String × String)) (field v : String)
    (hEn : s.enabled = true) (hRdy : s.metricsReady = true)
    (hHash : aget s.metricsDb.hashes (Utilities.getDeploymentKeyLabelsHash deploymentKey)
        = some hsh)
    (hfv : aget hsh field = some v)
    (hws : ∀ c ∈ v.data, isJsSpace c = true) :
    (getMetricsWithDeploymentKey s false false deploymentKey).1
      = Except.ok (some (hsh.map (fun p => (p.1, convertMetricValue p.2))))
    ∧ aget (hsh.map (fun p => (p.1, convertMetricValue p.2))) field
        = some (MetricVal.num 0) := by
  refine ⟨getMetrics_run s deploymentKey hsh hEn hRdy hHash, ?_⟩
  rw [aget_map hsh convertMetricValue field, hfv]
  simp [convertMetricValue, jsToNumber_all_space v hws]

theorem claim_C10_witness :
    aget metricsDemoState.metricsDb.hashes
        (Utilities.getDeploymentKeyLabelsHash "dep1")
        = some [("v1:Active", "3"), ("note", "abc"), ("blank", " ")]
    ∧ aget [("v1:Active", "3"), ("note", "abc"), ("blank", " ")] "blank" = some " "
    ∧ (∀ c ∈ (" " : String).data, isJsSpace c = true)
    ∧ aget ([("v1:Active", "3"), ("note", "abc"), ("blank", " ")].map
        (fun p => (p.1, convertMetricValue p.2))) "blank" = some (MetricVal.num 0) :=
  ⟨by decide, by decide, by decide,
   (claim_C10_whitespace_to_zero metricsDemoState "dep1"
     [("v1:Active", "3"), ("note", "abc"), ("blank", " ")] "blank" " " (by decide)
     (by decide) (by decide) (by decide) (by decide)).2⟩

theorem getLabelActiveCountField_some (label : String) (h : label ≠ "") :
    Utilities.getLabelActiveCountField label = some (label ++ ":" ++ ACTIVE) := by
  simp [Utilities.getLabelActiveCountField, h]

theorem getLabelStatusField_succeeded (label : String) :
    Utilities.getLabelStatusField label DEPLOYMENT_SUCCEEDED
      = some (label ++ ":" ++ DEPLOYMENT_SUCCEEDED) := by
  have hval : Utilities.isValidDeploymentStatus DEPLOYMENT_SUCCEEDED = true := by decide
  rw [Utilities.getLabelStatusField, if_pos hval]

theorem recordUpdateBatch_no_prev (ck cl : String) (pk pl : Option String)
    (h : (truthy pk && truthy pl) = false) :
    recordUpdateBatch ck cl pk pl
      = [BatchCmd.hincrby (Utilities.getDeploymentKeyLabelsHash ck)
           (Utilities.getLabelActiveCountField cl) 1,
         BatchCmd.hincrby (Utilities.getDeploymentKeyLabelsHash ck)
           (Utilities.getLabelStatusField cl DEPLOYMENT_SUCCEEDED) 1] := by
  simp [recordUpdateBatch, h]

theorem recordUpdateBatch_prev (ck cl pk pl : String) (hpk : pk ≠ "") (hpl : pl ≠ "") :
    recordUpdateBatch ck cl (some pk) (some pl)
      = [BatchCmd.hincrby (Utilities.getDeploymentKeyLabelsHash ck)
           (Utilities.getLabelActiveCountField cl) 1,
         BatchCmd.hincrby (Utilities.getDeploymentKeyLabelsHash ck)
           (Utilities.getLabelStatusField cl DEPLOYMENT_SUCCEEDED) 1,
         BatchCmd.hincrby (Utilities.getDeploymentKeyLabelsHash pk)
           (Utilities.getLabelActiveCountField pl) (-1)] := by
  have ht : (truthy (some pk) && truthy (some pl)) = true := by
    simp [truthy, hpk, hpl]
  simp [recordUpdateBatch, ht]

/-- The overall effect of a successful `recordUpdate` run: one atomic
batch submission transforms the metrics database. -/
theorem recordUpdate_run (s : RedisManager) (ck cl : String) (pk pl : Option String)
    (hEn : s.enabled = true) (hRdy : s.metricsReady = true) :
    (recordUpdate s false false ck cl pk pl).1 = Except.ok ()
    ∧ ((recordUpdate s false false ck cl pk pl).2).metricsDb
        = execBatchDb s.metricsDb (recordUpdateBatch ck cl pk pl) := by
  obtain ⟨f, s1, heq, hen1, hops1, hrdy1, hodb1, hmdb1⟩ := ensureMetricsSetup_run s hEn hRdy
  unfold recordUpdate safeExecBatch
  rw [heq]
  constructor
  · simp [hen1, hrdy1, hmdb1, safeGuard, caught, pCatch]
  · simp [hen1, hrdy1, hmdb1, safeGuard, caught, pCatch]

theorem execBatch_two (db : RedisDb) (H fA fS : String) (a b : Int)
    (hAS : fA ≠ fS)
    (ha : counterVal db H fA = some a) (hb : counterVal db H fS = some b) :
    execBatchDb db [BatchCmd.hincrby H (some fA) 1, BatchCmd.hincrby H (some fS) 1]
      = hsetDb (hsetDb db H fA (intToString (a + 1))) H fS (intToString (b + 1)) := by
  unfold execBatchDb
  rw [List.foldl_cons, List.foldl_cons, List.foldl_nil]
  rw [applyBatchCmd_hincrby_counter db H fA 1 a ha]
  rw [applyBatchCmd_hincrby_counter _ H fS 1 b
    (by rw [counterVal_hsetDb_ne db H fA _ H fS (Or.inr (Ne.symm hAS))]; exact hb)]

theorem execBatch_three (db : RedisDb) (H fA fS PH pA : String) (a b c : Int)
    (hAS : fA ≠ fS)
    (hprev : PH ≠ H ∨ (pA ≠ fA ∧ pA ≠ fS))
    (ha : counterVal db H fA = some a) (hb : counterVal db H fS = some b)
    (hc : counterVal db PH pA = some c) :
    execBatchDb db [BatchCmd.hincrby H (some fA) 1, BatchCmd.hincrby H (some fS) 1,
      BatchCmd.hincrby PH (some pA) (-1)]
      = hsetDb (hsetDb (hsetDb db H fA (intToString (a + 1))) H fS (intToString (b + 1)))
          PH pA (intToString (c + (-1))) := by
  have hd1 : PH ≠ H ∨ pA ≠ fA := by
    rcases hprev with h | h
    · exact Or.inl h
    · exact Or.inr h.1
  have hd2 : PH ≠ H ∨ pA ≠ fS := by
    rcases hprev with h | h
    · exact Or.inl h
    · exact Or.inr h.2
  unfold execBatchDb
  rw [List.foldl_cons, List.foldl_cons, List.foldl_cons, List.foldl_nil]
  rw [applyBatchCmd_hincrby_counter db H fA 1 a ha]
  rw [applyBatchCmd_hincrby_counter _ H fS 1 b
    (by rw [counterVal_hsetDb_ne db H fA _ H fS (Or.inr (Ne.symm hAS))]; exact hb)]
  rw [applyBatchCmd_hincrby_counter _ PH pA (-1) c
    (by rw [counterVal_hsetDb_ne _ H fS _ PH pA hd2,
            counterVal_hsetDb_ne db H fA _ PH pA hd1]; exact hc)]

/-- C1 (amended): with the store available and a truthy (non-empty)
current label, `recordUpdate` submits one batch whose effect is: the
current label's Active and DeploymentSucceeded counters each grow by 1,
and the previous label's Active counter shrinks by 1 exactly when both
previous arguments are given and truthy (non-empty); when the previous
pair is absent or falsy, nothing outside the two current fields changes.
(The overlapping case previousKey = currentKey with previousLabel =
currentLabel, where the increment and decrement hit the same field and
cancel, is excluded from the decrement conjunct.) -/
theorem claim_C1_record_update_amended (s : RedisManager)
    (currentDeploymentKey currentLabel : String)
    (previousDeploymentKey previousLabel : Option String) (a b : Int)
    (hEn : s.enabled = true) (hRdy : s.metricsReady = true)
    (hLbl : currentLabel ≠ "")
    (ha : counterVal s.metricsDb
        (Utilities.getDeploymentKeyLabelsHash currentDeploymentKey)
        (currentLabel ++ ":" ++ ACTIVE) = some a)
    (hb : counterVal s.metricsDb
        (Utilities.getDeploymentKeyLabelsHash currentDeploymentKey)
        (currentLabel ++ ":" ++ DEPLOYMENT_SUCCEEDED) = some b) :
    (recordUpdate s false false currentDeploymentKey currentLabel
        previousDeploymentKey previousLabel).1 = Except.ok ()
    ∧ ((truthy previousDeploymentKey && truthy previousLabel) = false →
        counterVal ((recordUpdate s false false currentDeploymentKey currentLabel
            previousDeploymentKey previousLabel).2).metricsDb
          (Utilities.getDeploymentKeyLabelsHash currentDeploymentKey)
          (currentLabel ++ ":" ++ ACTIVE) = some (a + 1)
        ∧ counterVal ((recordUpdate s false false currentDeploymentKey currentLabel
            previousDeploymentKey previousLabel).2).metricsDb
          (Utilities.getDeploymentKeyLabelsHash currentDeploymentKey)
          (currentLabel ++ ":" ++ DEPLOYMENT_SUCCEEDED) = some (b + 1)
        ∧ ∀ k f, (k ≠ Utilities.getDeploymentKeyLabelsHash currentDeploymentKey
            ∨ (f ≠ currentLabel ++ ":" ++ ACTIVE
               ∧ f ≠ currentLabel ++ ":" ++ DEPLOYMENT_SUCCEEDED)) →
          hget ((recordUpdate s false false currentDeploymentKey currentLabel
              previousDeploymentKey previousLabel).2).metricsDb k f
            = hget s.metricsDb k f)
    ∧ (∀ pk pl c, previousDeploymentKey = some pk → previousLabel = some pl →
        pk ≠ "" → pl ≠ "" →
        (pk ≠ currentDeploymentKey ∨ pl ≠ currentLabel) →
        counterVal s.metricsDb (Utilities.getDeploymentKeyLabelsHash pk)
          (pl ++ ":" ++ ACTIVE) = some c →
        counterVal ((recordUpdate s false false currentDeploymentKey currentLabel
            previousDeploymentKey previousLabel).2).metricsDb
          (Utilities.getDeploymentKeyLabelsHash currentDeploymentKey)
          (currentLabel ++ ":" ++ ACTIVE) = some (a + 1)
        ∧ counterVal ((recordUpdate s false false currentDeploymentKey currentLabel
            previousDeploymentKey previousLabel).2).metricsDb
          (Utilities.getDeploymentKeyLabelsHash currentDeploymentKey)
          (currentLabel ++ ":" ++ DEPLOYMENT_SUCCEEDED) = some (b + 1)
        ∧ counterVal ((recordUpdate s false false currentDeploymentKey currentLabel
            previousDeploymentKey previousLabel).2).metricsDb
          (Utilities.getDeploymentKeyLabelsHash pk) (pl ++ ":" ++ ACTIVE)
          = some (c - 1)) := by
  obtain ⟨hok, hdb⟩ := recordUpdate_run s currentDeploymentKey currentLabel
    previousDeploymentKey previousLabel hEn hRdy
  have hAS : currentLabel ++ ":" ++ ACTIVE ≠ currentLabel ++ ":" ++ DEPLOYMENT_SUCCEEDED :=
    label_active_ne_succeeded currentLabel currentLabel
  refine ⟨hok, ?_, ?_⟩
  · intro hnoprev
    rw [hdb, recordUpdateBatch_no_prev _ _ _ _ hnoprev,
      getLabelActiveCountField_some currentLabel hLbl,
      getLabelStatusField_succeeded currentLabel,
      execBatch_two s.metricsDb _ _ _ a b hAS ha hb]
    refine ⟨?_, ?_, ?_⟩
    · rw [counterVal_hsetDb_ne _ _ _ _ _ _ (Or.inr hAS)]
      exact counterVal_hsetDb_same _ _ _ _
    · exact counterVal_hsetDb_same _ _ _ _
    · intro k f hkf
      have hkf1 : k ≠ Utilities.getDeploymentKeyLabelsHash currentDeploymentKey
          ∨ f ≠ currentLabel ++ ":" ++ ACTIVE := by
        rcases hkf with h | h
        · exact Or.inl h
        · exact Or.inr h.1
      have hkf2 : k ≠ Utilities.getDeploymentKeyLabelsHash currentDeploymentKey
          ∨ f ≠ currentLabel ++ ":" ++ DEPLOYMENT_SUCCEEDED := by
        rcases hkf with h | h
        · exact Or.inl h
        · exact Or.inr h.2
      rw [hget_hsetDb_ne _ _ _ _ _ _ hkf2, hget_hsetDb_ne _ _ _ _ _ _ hkf1]
  · intro pk pl c hpk hpl hpkne hplne hdist hc
    subst hpk
    subst hpl
    have hprev : Utilities.getDeploymentKeyLabelsHash pk
          ≠ Utilities.getDeploymentKeyLabelsHash currentDeploymentKey
        ∨ (pl ++ ":" ++ ACTIVE ≠ currentLabel ++ ":" ++ ACTIVE
           ∧ pl ++ ":" ++ ACTIVE ≠ currentLabel ++ ":" ++ DEPLOYMENT_SUCCEEDED) := by
      rcases hdist with h | h
      · exact Or.inl (fun hcon => h (labels_hash_inj _ _ hcon))
      · exact Or.inr ⟨fun hcon => h (label_active_field_inj pl currentLabel hcon),
          label_active_ne_succeeded pl currentLabel⟩
    rw [hdb, recordUpdateBatch_prev _ _ pk pl hpkne hplne,
      getLabelActiveCountField_some currentLabel hLbl,
      getLabelStatusField_succeeded currentLabel,
      getLabelActiveCountField_some pl hplne,
      execBatch_three s.metricsDb _ _ _ _ _ a b c hAS hprev ha hb hc]
    have hsym1 : Utilities.getDeploymentKeyLabelsHash currentDeploymentKey
          ≠ Utilities.getDeploymentKeyLabelsHash pk
        ∨ currentLabel ++ ":" ++ ACTIVE ≠ pl ++ ":" ++ ACTIVE := by
      rcases hprev with h | h
      · exact Or.inl (Ne.symm h)
      · exact Or.inr (Ne.symm h.1)
    have hsym2 : Utilities.getDeploymentKeyLabelsHash currentDeploymentKey
          ≠ Utilities.getDeploymentKeyLabelsHash pk
        ∨ currentLabel ++ ":" ++ DEPLOYMENT_SUCCEEDED ≠ pl ++ ":" ++ ACTIVE := by
      rcases hprev with h | h
      · exact Or.inl (Ne.symm h)
      · exact Or.inr (Ne.symm h.2)
    refine ⟨?_, ?_, ?_⟩
    · rw [counterVal_hsetDb_ne _ _ _ _ _ _ hsym1,
        counterVal_hsetDb_ne _ _ _ _ _ _ (Or.inr hAS)]
      exact counterVal_hsetDb_same _ _ _ _
    · rw [counterVal_hsetDb_ne _ _ _ _ _ _ hsym2]
      exact counterVal_hsetDb_same _ _ _ _
    · rw [counterVal_hsetDb_same _ _ _ (c + (-1))]
      congr 1

/-- C1 as stated is refuted at a call where both previous arguments are
given but the previous label is the empty string: the source's JS
truthiness test skips the decrement, so the field `":Active"` on the
previous deployment's hash keeps its value instead of being decremented
by 1. -/
theorem claim_C1_counterexample :
    (recordUpdate demoState false false "k1" "v2" (some "k2") (some "")).1 = Except.ok ()
    ∧ (some "k2" : Option String) ≠ none
    ∧ (some "" : Option String) ≠ none
    ∧ counterVal ((recordUpdate demoState false false "k1" "v2" (some "k2")
        (some "")).2).metricsDb
        (Utilities.getDeploymentKeyLabelsHash "k2") ("" ++ ":" ++ ACTIVE) = some 0
    ∧ (0 : Int) ≠ 0 - 1 := by
  refine ⟨by rfl, by decide, by decide, by decide, by decide⟩

theorem claim_C1_amended_witness :
    demoState.enabled = true ∧ demoState.metricsReady = true
    ∧ ("v2" : String) ≠ ""
    ∧ counterVal demoState.metricsDb (Utilities.getDeploymentKeyLabelsHash "k1")
        ("v2" ++ ":" ++ ACTIVE) = some 0
    ∧ counterVal demoState.metricsDb (Utilities.getDeploymentKeyLabelsHash "k1")
        ("v2" ++ ":" ++ DEPLOYMENT_SUCCEEDED) = some 0
    ∧ (recordUpdate demoState false false "k1" "v2" (some "k2") (some "v1")).1
        = Except.ok ()
    ∧ counterVal ((recordUpdate demoState false false "k1" "v2" (some "k2")
        (some "v1")).2).metricsDb
        (Utilities.getDeploymentKeyLabelsHash "k2") ("v1" ++ ":" ++ ACTIVE)
        = some (0 - 1) :=
  ⟨by decide, by decide, by decide, by decide, by decide,
   (claim_C1_record_update_amended demoState "k1" "v2" (some "k2") (some "v1") 0 0
     (by decide) (by decide) (by decide) (by decide) (by decide)).1,
   ((claim_C1_record_update_amended demoState "k1" "v2" (some "k2") (some "v1") 0 0
     (by decide) (by decide) (by decide) (by decide) (by decide)).2.2 "k2" "v1" 0 rfl rfl
     (by decide) (by decide) (Or.inl (by decide)) (by decide)).2.2⟩
